import Mathlib

/-!
Verification of the rules-synchronization service.

This file gives a shallow embedding of the core of the repository:

* `app/rule_parser/excel_loader.py` — header discovery, field mapping,
  row normalization and per-sheet extraction of rule records;
* `app/models/rule_data.py` — the validated rule record and the Python
  keyword-argument call semantics of its constructor;
* `app/service/rules_synchronizer.py`, `main.py`, `lambda_handler.py` —
  the change gate over the fingerprint store and the publish
  orchestrator, with collaborator behaviour (download, fingerprint
  store, extraction, upload) supplied as an explicit environment.

External collaborators (HTTP transport, the S3 client, the openpyxl
workbook reader, logging) are out of scope and are modelled by their
result values, exactly as the orchestrator observes them.
-/

namespace SyncRules

/-- Value held in a spreadsheet cell.  `openpyxl` hands the loader
Python values; the loader only ever distinguishes strings from
non-strings, and stringifies with `str(...)`, so strings and integers
cover the behaviours the code branches on.  An absent/blank cell is
`Option.none` at the row level. -/
inductive Cell where
  | str (s : String)
  | int (n : Int)
  deriving DecidableEq, Repr

/-- Python `str(cell)` for the cell values we model. -/
def cellStr : Cell → String
  | .str s => s
  | .int n => toString n

/-- Drop leading whitespace characters from a character list. -/
def dropWS : List Char → List Char
  | [] => []
  | c :: cs => if c.isWhitespace then dropWS cs else c :: cs

/-- Python `str.strip()`: remove leading and trailing whitespace.
Implemented over the character list so that it is kernel-reducible
(the ASCII whitespace classes of Python and Lean agree on every
character our inputs contain). -/
def pyStrip (s : String) : String :=
  ⟨(dropWS (dropWS s.data.reverse).reverse)⟩

/-- Python `str.upper()` (ASCII, which covers every label and filter
the loader compares). -/
def pyUpper (s : String) : String :=
  ⟨s.data.map Char.toUpper⟩

/-- Python truthiness of a cell value (`if not id: ...` in
`RuleData.__init__`): the empty string and the integer 0 are falsy. -/
def cellTruthy : Cell → Bool
  | .str s => s ≠ ""
  | .int n => n ≠ 0

/-- One spreadsheet row as `iter_rows(values_only=True)` yields it:
an ordered tuple of optional cell values (rows may be jagged). -/
abbrev Row := List (Option Cell)

/-- `EXCEL_FIELD_MAP` from `excel_loader.py`: source column label to
canonical field key. -/
def EXCEL_FIELD_MAP : List (String × String) :=
  [("Id", "id"), ("Descripcion", "description"), ("Tipo", "type"),
   ("Artefacto", "references"), ("Criticidad", "criticality")]

/-- Python `EXCEL_FIELD_MAP.get(h, h)` for a string `h`. -/
def excel_field_map_get (h : String) : String :=
  match EXCEL_FIELD_MAP.find? (fun p => p.1 = h) with
  | some p => p.2
  | none => h

/-- `REQUIRED_EXCEL_FIELDS = list(EXCEL_FIELD_MAP.keys())`. -/
def REQUIRED_EXCEL_FIELDS : List String := EXCEL_FIELD_MAP.map (·.1)

/-- The contribution of one cell to the `cell_values` set of
`_find_header_row_index`: skip `None`, stringify, trim, skip blanks. -/
def cellHeaderVal : Option Cell → Option String
  | none => none
  | some c =>
    if pyStrip (cellStr c) = "" then none else some (pyStrip (cellStr c))

/-- The non-empty, whitespace-trimmed, stringified values of a row's
cells — the `cell_values` set built inside `_find_header_row_index`. -/
def rowCellValues (r : Row) : List String :=
  r.filterMap cellHeaderVal

/-- The test `required_fields_set.issubset(cell_values)` from
`_find_header_row_index`. -/
def row_has_all_required (r : Row) : Bool :=
  REQUIRED_EXCEL_FIELDS.all (fun f => (rowCellValues r).contains f)

/-- `_find_header_row_index`: scan rows top to bottom and return the
index of the first row whose set of non-empty trimmed stringified cell
values contains every required label, or `none`.  (The Python guard
`if row is None: continue` is dead under `iter_rows`, which always
yields tuples, so rows are total here.) -/
def find_header_row_index : List Row → Option Nat
  | [] => none
  | r :: rs =>
    if row_has_all_required r then some 0
    else (find_header_row_index rs).map (· + 1)

/-- `_get_missing_required_fields`: required labels not present among
the non-empty trimmed stringified header cells. -/
def get_missing_required_fields (headers : Row) : List String :=
  REQUIRED_EXCEL_FIELDS.filter (fun f => ¬ (rowCellValues headers).contains f)

/-- One entry of `mapped_headers = [EXCEL_FIELD_MAP.get(h, h) for h in
headers]`.  The lookup uses the raw header value: only exact string
matches are translated; `None` and non-string headers pass through. -/
def mapHeader : Option Cell → Option Cell
  | some (.str s) => some (.str (excel_field_map_get s))
  | other => other

/-- The full `mapped_headers` list. -/
def map_headers (headers : Row) : Row := headers.map mapHeader

/-- Key of a Python dict entry in a row dictionary: the mapped header
value, which may be `None` or a non-string (both are possible keys of
a Python dict; only string keys survive a `**` call). -/
abbrev RKey := Option Cell

/-- A row dictionary: insertion-ordered association list with unique
keys, mirroring a Python `dict`. -/
abbrev RowDict := List (RKey × Cell)

/-- Python `d[k] = v`: replace in place if the key exists, else append. -/
def dictSet (d : RowDict) (k : RKey) (v : Cell) : RowDict :=
  match d with
  | [] => [(k, v)]
  | (k0, v0) :: rest =>
    if k0 = k then (k0, v) :: rest else (k0, v0) :: dictSet rest k v

/-- Python `d.get(k)`. -/
def dictGet (d : RowDict) (k : RKey) : Option Cell :=
  match d.find? (fun p => p.1 = k) with
  | some p => some p.2
  | none => none

/-- The cleaning applied to one cell by `_create_row_dict`: `None` is
dropped (handled by the caller), a string is trimmed and dropped if it
becomes empty, non-strings pass through unchanged. -/
def cleanCell : Cell → Option Cell
  | .str s => if pyStrip s = "" then none else some (.str (pyStrip s))
  | c => some c

/-- `_create_row_dict`: zip the mapped headers with the row (zip
truncates at the shorter), drop `None` and blank-string cells, trim
string cells, and build the dict in order. -/
def create_row_dict (row : Row) (mapped : Row) : RowDict :=
  (List.zip mapped row).foldl
    (fun d p =>
      match p.2 with
      | none => d
      | some c =>
        match cleanCell c with
        | none => d
        | some c' => dictSet d p.1 c')
    []

/-- `_matches_type_filter`: `row_dict.get("type", "").strip().upper()
== type_filter`.  A non-string `type` value makes Python raise
`AttributeError` on `.strip()`, modelled as `Except.error`. -/
def matches_type_filter (d : RowDict) (type_filter : String) :
    Except Unit Bool :=
  match dictGet d (some (.str "type")) with
  | none => .ok (pyUpper (pyStrip "") == type_filter)
  | some (.str s) => .ok (pyUpper (pyStrip s) == type_filter)
  | some (.int _) => .error ()

/-- `_is_empty_row`: every cell is `None` or a string that is blank
after trimming. -/
def is_empty_row (row : Row) : Bool :=
  row.all (fun oc =>
    match oc with
    | none => true
    | some (.str s) => pyStrip s = ""
    | some (.int _) => false)

/-- A validated rule record — the attributes `RuleData.__init__` sets.
`id`, `description`, `type` and `criticality` are coerced with
`str(...)`; the other fields store the raw value from the row dict. -/
structure RuleData where
  id : String
  description : String
  type : String
  documentation : Option Cell
  references : Option Cell
  criticality : String
  explanation : Option Cell
  projects : Option Cell
  deriving DecidableEq, Repr

/-- Parameter names of `RuleData.__init__`, including `self`: a keyword
argument named `self` collides with the bound method's first parameter
and is a `TypeError`, and the other eight names bind the declared
parameters.  Any other string key lands in `**kwargs` and is ignored. -/
def INIT_PARAM_NAMES : List String :=
  ["self", "id", "description", "type", "documentation", "references",
   "criticality", "explanation", "projects"]

/-- Whether a dict key is not a Python string. -/
def isNonStrKey : RKey → Bool
  | some (.str _) => false
  | _ => true

/-- Whether a row dict has a key that is not a Python string — such a
dict makes `RuleData(**d)` raise `TypeError: keywords must be strings`
before any binding happens. -/
def hasNonStringKey (d : RowDict) : Bool :=
  d.any (fun p => isNonStrKey p.1)

/-- The row-dict key for a canonical field name. -/
def strKey (s : String) : RKey := some (.str s)

/-- Failure modes of the Python call `RuleData(**d)`. -/
inductive PyErr where
  | kwNotString
  | selfCollision
  | missingArg
  | valueErr (field : String)
  deriving DecidableEq, Repr

/-- The call `RuleData(**d)`: reject non-string keys, then bind the
declared parameters by name (a `self` key collides; `id`,
`description`, `type` have no default), run the truthiness checks of
`RuleData.__init__` in order, and build the record.  Extra string keys
are swallowed by `**kwargs` and never stored. -/
def ruleDataNew (d : RowDict) : Except PyErr RuleData :=
  if hasNonStringKey d then .error .kwNotString
  else if (dictGet d (strKey "self")).isSome then .error .selfCollision
  else
    match dictGet d (strKey "id"), dictGet d (strKey "description"),
          dictGet d (strKey "type") with
    | some idv, some dv, some tv =>
      if ¬ cellTruthy idv then .error (.valueErr "id")
      else if ¬ cellTruthy dv then .error (.valueErr "description")
      else if ¬ cellTruthy tv then .error (.valueErr "type")
      else .ok {
        id := cellStr idv
        description := cellStr dv
        type := cellStr tv
        documentation := dictGet d (strKey "documentation")
        references := dictGet d (strKey "references")
        criticality := ((dictGet d (strKey "criticality")).map cellStr).getD "media"
        explanation := dictGet d (strKey "explanation")
        projects := dictGet d (strKey "projects") }
    | _, _, _ => .error .missingArg

/-- The `row_data` attached to a `RuleValidationError`: the cleaned
row dict on the validation paths, and on the unexpected-error path the
raw `dict(zip(mapped_headers, row))` (or the `datos_incompletos`
marker when the lengths differ). -/
inductive RowDataPayload where
  | cleaned (d : RowDict)
  | rawZip (d : List (RKey × Option Cell))
  | incomplete
  deriving DecidableEq, Repr

/-- Python `dict` assignment for raw zip payloads. -/
def dictSetRaw (d : List (RKey × Option Cell)) (k : RKey) (v : Option Cell) :
    List (RKey × Option Cell) :=
  match d with
  | [] => [(k, v)]
  | (k0, v0) :: rest =>
    if k0 = k then (k0, v) :: rest else (k0, v0) :: dictSetRaw rest k v

/-- `dict(zip(mapped_headers, row)) if len(mapped_headers) == len(row)
else the error marker` — the payload built in the outer `except` of
`_create_rule_from_row`. -/
def zip_raw_row_data (mapped row : Row) : RowDataPayload :=
  if mapped.length = row.length then
    .rawZip ((List.zip mapped row).foldl (fun d p => dictSetRaw d p.1 p.2) [])
  else .incomplete

/-- The `RuleValidationError` raised by `_create_rule_from_row`:
carries the 1-based row number and the row data. -/
structure RuleValidationError where
  row_number : Nat
  row_data : RowDataPayload
  deriving DecidableEq, Repr

/-- `_create_rule_from_row`: build the row dict, apply the type filter
(a non-string `type` value raises inside the filter and lands in the
outer `except`, with the raw zip payload), return `none` on a filter
mismatch, and otherwise construct the record — any constructor error
becomes a `RuleValidationError` carrying the cleaned row dict. -/
def create_rule_from_row (row : Row) (mapped : Row) (type_filter : String)
    (row_idx : Nat) : Except RuleValidationError (Option RuleData) :=
  let d := create_row_dict row mapped
  match matches_type_filter d type_filter with
  | .error _ => .error ⟨row_idx, zip_raw_row_data mapped row⟩
  | .ok false => .ok none
  | .ok true =>
    match ruleDataNew d with
    | .ok r => .ok (some r)
    | .error _ => .error ⟨row_idx, .cleaned d⟩

/-- Errors that abort the processing of one sheet. -/
inductive SheetErr where
  | headerNotFound
  | missingRequired (missing : List String)
  | unexpected
  deriving DecidableEq, Repr

/-- Classification of one data row inside the `_process_worksheet`
loop.  `invalidNoEntry` is the branch that increments `invalid_rules`
without a diagnostic entry (rule is `None` yet the filter matches) —
unreachable in fact, kept for fidelity. -/
inductive RowOutcome where
  | empty
  | valid (r : RuleData)
  | filtered
  | invalid (e : RuleValidationError)
  | invalidNoEntry
  deriving DecidableEq, Repr

/-- One iteration of the data-row loop of `_process_worksheet`: skip
empty rows silently, otherwise classify via `_create_rule_from_row`;
when the rule came back `None` the loop re-evaluates the type filter
to decide between the filtered and invalid counters (and an exception
there would escape the sheet). -/
def rowStep (mapped : Row) (type_filter : String) (row_idx : Nat) (row : Row) :
    Except SheetErr RowOutcome :=
  if is_empty_row row then .ok .empty
  else
    match create_rule_from_row row mapped type_filter row_idx with
    | .ok (some r) => .ok (.valid r)
    | .ok none =>
      let d := create_row_dict row mapped
      match matches_type_filter d type_filter with
      | .ok false => .ok .filtered
      | .ok true => .ok .invalidNoEntry
      | .error _ => .error .unexpected
    | .error e => .ok (.invalid e)

/-- Counters and collections accumulated over one sheet's data rows. -/
structure SheetStats where
  rules : List RuleData
  valid_rules : Nat
  invalid_rules : Nat
  filtered_rules : Nat
  empty_rows : Nat
  validation_errors : List RuleValidationError
  deriving DecidableEq, Repr

/-- The empty accumulator. -/
def emptyStats : SheetStats := ⟨[], 0, 0, 0, 0, []⟩

/-- Fold one row outcome onto the statistics of the later rows. -/
def consOutcome (o : RowOutcome) (st : SheetStats) : SheetStats :=
  match o with
  | .empty => { st with empty_rows := st.empty_rows + 1 }
  | .valid r => { st with rules := r :: st.rules, valid_rules := st.valid_rules + 1 }
  | .filtered => { st with filtered_rules := st.filtered_rules + 1 }
  | .invalid e => { st with invalid_rules := st.invalid_rules + 1,
                            validation_errors := e :: st.validation_errors }
  | .invalidNoEntry => { st with invalid_rules := st.invalid_rules + 1 }

/-- The data-row loop of `_process_worksheet`, starting at the given
1-based row number.  A sheet-fatal error in any row aborts the sheet,
exactly as an uncaught exception does in the Python loop. -/
def process_rows (mapped : Row) (type_filter : String) :
    Nat → List Row → Except SheetErr SheetStats
  | _, [] => .ok emptyStats
  | idx, row :: rest =>
    match rowStep mapped type_filter idx row with
    | .error e => .error e
    | .ok o =>
      match process_rows mapped type_filter (idx + 1) rest with
      | .error e => .error e
      | .ok st => .ok (consOutcome o st)

/-- `_process_worksheet` on the materialized row grid of one sheet: an
empty sheet and a sheet with no qualifying row raise
`HeaderNotFoundError`; otherwise re-check the required labels on the
header row, map the headers, and run the data rows that follow it,
numbering them from `header_row_idx + 2`. -/
def process_worksheet (rows : List Row) (type_filter : String) :
    Except SheetErr SheetStats :=
  if rows = [] then .error .headerNotFound
  else
    match find_header_row_index rows with
    | none => .error .headerNotFound
    | some hidx =>
      let headers := rows.getD hidx []
      let missing := get_missing_required_fields headers
      if missing ≠ [] then .error (.missingRequired missing)
      else
        process_rows (map_headers headers) type_filter (hidx + 2)
          (rows.drop (hidx + 1))

/-- The aggregate result of `load_rules_from_excel`. -/
structure LoadOut where
  rules : List RuleData
  processed_sheets : Nat
  skipped_sheets : Nat
  deriving DecidableEq, Repr

/-- The sheet loop of `load_rules_from_excel`: every sheet-level error
is caught, logged as a diagnostic and skipped; the records of the
processed sheets are concatenated in sheet order. -/
def load_sheets (type_filter_upper : String) :
    List (String × List Row) → LoadOut
  | [] => ⟨[], 0, 0⟩
  | (_, rows) :: rest =>
    let r := load_sheets type_filter_upper rest
    match process_worksheet rows type_filter_upper with
    | .ok st =>
      ⟨st.rules ++ r.rules, r.processed_sheets + 1, r.skipped_sheets⟩
    | .error _ => ⟨r.rules, r.processed_sheets, r.skipped_sheets + 1⟩

/-- `load_rules_from_excel` past its file-level validations (existence
and extension checks and workbook opening are collaborator faults that
abort the run and are modelled at the orchestrator): upper-case the
type filter once and process every sheet of the workbook. -/
def load_rules_from_excel (wb : List (String × List Row))
    (type_filter : String) : LoadOut :=
  load_sheets (pyUpper type_filter) wb

/-- The change gate of `main.py` / `lambda_handler.py`
(`has_file_changed_s3`) together with the store semantics of
`hash_utils.py`.  `cur` is the outcome of `calculate_file_hash` (its
faults propagate).  `get_hash_from_s3` returns the stripped stored
value, the empty string when the key is absent (`NoSuchKey`), and
propagates every other store fault; `save_hash_to_s3` overwrites the
key or propagates its fault.  Result: (changed, store after the call,
whether the store was written). -/
def has_file_changed_s3 (cur : Except Unit String) (store : Option String)
    (getFault putFault : Bool) : Except Unit (Bool × Option String × Bool) :=
  match cur with
  | .error e => .error e
  | .ok c =>
    if getFault then .error ()
    else
      let prev := pyStrip (store.getD "")
      if c = prev then .ok (false, store, false)
      else if putFault then .error ()
      else .ok (true, some c, true)

/-- `RulesSynchronizer._has_file_changed`: the same computation under
a catch-all — any fault while hashing or while reading or writing the
store is logged and the file is assumed changed, with the store left
as it was. -/
def rs_has_file_changed (cur : Except Unit String) (store : Option String)
    (getFault putFault : Bool) : Bool × Option String × Bool :=
  match has_file_changed_s3 cur store getFault putFault with
  | .ok r => r
  | .error _ => (true, store, false)

/-- Result of `download_excel_from_github` plus the
`os.path.exists` check of `_download_excel_file`: either a local path
whose file holds the artifact's raw bytes, or a fault. -/
inductive DownloadResult where
  | ok (path : String) (bytes : List Nat)
  | err
  deriving DecidableEq, Repr

/-- Externally observable side effects of one run, in order. -/
inductive Event where
  | putHashEv (h : String)
  | publishEv (rules : List RuleData)
  deriving DecidableEq, Repr

/-- Behaviour of every collaborator a run consults, plus the initial
fingerprint-store state: the download result, whether hashing the
local file faults, the digest function over raw bytes, whether the
fingerprint-store get/put fault, the stored fingerprint, the outcome
of rule extraction, whether the rule-store upload succeeds (an upload
exception and a `False` return travel the same failure path), and the
run's identifier and elapsed-clock reading. -/
structure Env where
  download : DownloadResult
  digestFault : Bool
  hashFn : List Nat → String
  getFault : Bool
  putFault : Bool
  store : Option String
  extract : Except Unit (List RuleData)
  uploadOk : Bool
  execId : String
  elapsed : Nat

/-- The `SyncResult` dataclass. -/
structure SyncResult where
  success : Bool
  rules_count : Nat
  message : String
  status_code : Nat
  execution_id : String
  execution_time : Nat
  deriving DecidableEq, Repr

/-- A run's terminal state: the returned outcome, the fingerprint
store, the ordered effects, and the path of a downloaded temp file
still on disk after the run returned (`none` when no file remains). -/
structure RunOut where
  result : SyncResult
  store : Option String
  events : List Event
  tempFile : Option String

/-- `RulesSynchronizer._create_result`. -/
def mkResult (env : Env) (success : Bool) (rc : Nat) (msg : String)
    (code : Nat) : SyncResult :=
  ⟨success, rc, msg, code, env.execId, env.elapsed⟩

/-- `RulesSynchronizer.sync_rules`.  The body runs inside
`with self._managed_temp_file() as excel_path`; that context manager
yields `None`, and the re-assignment `excel_path = self._download_excel_file()`
inside the block never reaches the context manager's own variable, so
its `finally` always calls `_cleanup_temp_file(None)` — a no-op.  The
downloaded file therefore remains on disk on every download-ok path
(`tempFile = some path` below).  Every exception of the body is caught
and turned into a 500 outcome. -/
def sync_rules (env : Env) : RunOut :=
  match env.download with
  | .err =>
    ⟨mkResult env false 0 "Error al sincronizar reglas: descarga fallida" 500,
     env.store, [], none⟩
  | .ok path bytes =>
    let cur : Except Unit String :=
      if env.digestFault then .error () else .ok (env.hashFn bytes)
    let g := rs_has_file_changed cur env.store env.getFault env.putFault
    let gateEvents : List Event :=
      if g.2.2 then [Event.putHashEv (env.hashFn bytes)] else []
    if ¬ g.1 then
      ⟨mkResult env true 0
        "No hay cambios en el archivo. No se realizó sincronización." 200,
       g.2.1, gateEvents, some path⟩
    else
      match env.extract with
      | .error _ =>
        ⟨mkResult env false 0
          "Error al sincronizar reglas: procesamiento fallido" 500,
         g.2.1, gateEvents, some path⟩
      | .ok rules =>
        if rules.isEmpty then
          ⟨mkResult env false 0 "El archivo no contiene reglas válidas." 204,
           g.2.1, gateEvents, some path⟩
        else
          let evs := gateEvents ++ [Event.publishEv rules]
          if env.uploadOk then
            ⟨mkResult env true rules.length
              (toString rules.length ++ " reglas cargadas y subidas correctamente")
              200, g.2.1, evs, some path⟩
          else
            ⟨mkResult env false 0
              "Error al sincronizar reglas: Falló la subida a S3" 500,
             g.2.1, evs, some path⟩

/-- The HTTP-style response of `lambda_handler`. -/
structure LambdaResp where
  statusCode : Nat
  body : String
  deriving DecidableEq, Repr

/-- Terminal state of one `lambda_handler` run. -/
structure LambdaOut where
  resp : LambdaResp
  store : Option String
  events : List Event
  tempFile : Option String

/-- `lambda_handler`: same pipeline, but the gate is the bare
`has_file_changed_s3`, whose faults jump to the handler's `except`
(returning 500 without extraction or publish), and the `finally`
clause calls `clean_temp_file(excel_path)` on the handler's own local
variable, so the downloaded file is removed on every exit path. -/
def lambda_handler (env : Env) : LambdaOut :=
  match env.download with
  | .err =>
    ⟨⟨500, "Error al sincronizar reglas: descarga fallida"⟩, env.store, [], none⟩
  | .ok _ bytes =>
    let cur : Except Unit String :=
      if env.digestFault then .error () else .ok (env.hashFn bytes)
    match has_file_changed_s3 cur env.store env.getFault env.putFault with
    | .error _ =>
      ⟨⟨500, "Error al sincronizar reglas: fallo de hash"⟩, env.store, [], none⟩
    | .ok g =>
      let gateEvents : List Event :=
        if g.2.2 then [Event.putHashEv (env.hashFn bytes)] else []
      if ¬ g.1 then
        ⟨⟨200, "No hay cambios en el archivo. No se realizó sincronización."⟩,
         g.2.1, gateEvents, none⟩
      else
        match env.extract with
        | .error _ =>
          ⟨⟨500, "Error al sincronizar reglas: procesamiento fallido"⟩,
           g.2.1, gateEvents, none⟩
        | .ok rules =>
          if rules.isEmpty then
            ⟨⟨204, "El archivo no contiene reglas válidas."⟩, g.2.1, gateEvents, none⟩
          else
            let evs := gateEvents ++ [Event.publishEv rules]
            if env.uploadOk then
              ⟨⟨200, toString rules.length ++ " reglas cargadas y subidas correctamente"⟩,
               g.2.1, evs, none⟩
            else
              ⟨⟨500, "Error al sincronizar reglas: Falló la subida a S3"⟩,
               g.2.1, evs, none⟩

/-- Number of publish (rule-store put) attempts in a trace. -/
def countPublish : List Event → Nat
  | [] => 0
  | .publishEv _ :: rest => countPublish rest + 1
  | _ :: rest => countPublish rest

/-- Whether the synchronizer's change gate reports changed in this
run (false when the download already failed and the gate never ran). -/
def gateChangedRS (env : Env) : Bool :=
  match env.download with
  | .err => false
  | .ok _ bytes =>
    (rs_has_file_changed
      (if env.digestFault then .error () else .ok (env.hashFn bytes))
      env.store env.getFault env.putFault).1

/-- Whether the lambda's change gate reports changed in this run
(false when the download failed or the gate itself raised). -/
def gateChangedLH (env : Env) : Bool :=
  match env.download with
  | .err => false
  | .ok _ bytes =>
    match has_file_changed_s3
        (if env.digestFault then .error () else .ok (env.hashFn bytes))
        env.store env.getFault env.putFault with
    | .ok g => g.1
    | .error _ => false

/-- Whether extraction succeeded with a non-empty record list. -/
def extractedNonEmpty (env : Env) : Bool :=
  match env.extract with
  | .ok rules => !rules.isEmpty
  | .error _ => false

/-- The six configuration attributes `validate_configuration`
requires; `none` models a missing attribute, and the empty string is
falsy like in Python. -/
structure Config where
  GITHUB_REPO_URL : Option String
  GITHUB_FILE_PATH : Option String
  GITHUB_BRANCH : Option String
  GITHUB_TOKEN : Option String
  S3_BUCKET_NAME : Option String
  DEFAULT_RULE_TYPE : Option String

/-- Python `hasattr(config, n) and getattr(config, n)` truthiness. -/
def truthyOpt : Option String → Bool
  | some s => s ≠ ""
  | none => false

/-- The `missing_configs` list comprehension of
`validate_configuration`, in declaration order. -/
def missing_configs (cfg : Config) : List String :=
  ([("GITHUB_REPO_URL", cfg.GITHUB_REPO_URL),
    ("GITHUB_FILE_PATH", cfg.GITHUB_FILE_PATH),
    ("GITHUB_BRANCH", cfg.GITHUB_BRANCH),
    ("GITHUB_TOKEN", cfg.GITHUB_TOKEN),
    ("S3_BUCKET_NAME", cfg.S3_BUCKET_NAME),
    ("DEFAULT_RULE_TYPE", cfg.DEFAULT_RULE_TYPE)].filter
      (fun p => ¬ truthyOpt p.2)).map (·.1)

/-- `validate_configuration`: raises `ValueError` when any required
configuration is missing or empty. -/
def validate_configuration (cfg : Config) : Except String Unit :=
  if missing_configs cfg = [] then .ok ()
  else
    .error ("Configuraciones faltantes: "
      ++ String.intercalate ", " (missing_configs cfg))

/-- `sync_rules_from_github`: validates the configuration OUTSIDE any
handler — a `ValueError` from `validate_configuration` propagates to
the caller — then builds the synchronizer and runs it. -/
def sync_rules_from_github (cfg : Config) (env : Env) :
    Except String SyncResult :=
  match validate_configuration cfg with
  | .error e => .error e
  | .ok _ => .ok (sync_rules env).result

/-! Specification-side predicates and per-row projections used to
state the properties. -/

/-- A row qualifies as a header row: its set of non-empty trimmed
stringified cell values is a superset of the required labels. -/
def RowQualifies (r : Row) : Prop :=
  ∀ f ∈ REQUIRED_EXCEL_FIELDS, ∃ c : Cell, some c ∈ r ∧ pyStrip (cellStr c) = f

/-- The record a single data row contributes, if any.  Independent of
the row number, which only decorates diagnostics. -/
def row_rule (mapped : Row) (type_filter : String) (row : Row) :
    Option RuleData :=
  if is_empty_row row then none
  else
    match matches_type_filter (create_row_dict row mapped) type_filter with
    | .ok true => (ruleDataNew (create_row_dict row mapped)).toOption
    | _ => none

/-- The validation diagnostics a run of the data-row loop collects, in
row order, starting at the given row number. -/
def row_errs (mapped : Row) (type_filter : String) :
    Nat → List Row → List RuleValidationError
  | _, [] => []
  | idx, row :: rest =>
    (match rowStep mapped type_filter idx row with
     | .ok (.invalid e) => [e]
     | _ => []) ++ row_errs mapped type_filter (idx + 1) rest

/-! Concrete inputs used by the closed theorems and witnesses. -/

/-- Header row of the end-to-end example. -/
def hdr : Row :=
  [some (.str "Id"), some (.str "Descripcion"), some (.str "Tipo"),
   some (.str "Artefacto"), some (.str "Criticidad")]

/-- First data row of the end-to-end example. -/
def r1 : Row :=
  [some (.str "R1"), some (.str "desc1"), some (.str "semantica"),
   some (.str "file1.txt"), some (.str "alta")]

/-- Second data row of the end-to-end example. -/
def r2 : Row :=
  [some (.str "R2"), some (.str "desc2"), some (.str "estructura"),
   some (.str ""), some (.str "media")]

/-- The record the end-to-end example yields. -/
def ruleR1 : RuleData :=
  ⟨"R1", "desc1", "semantica", none, some (.str "file1.txt"), "alta",
   none, none⟩

/-- A non-empty data row whose `Tipo` cell is absent. -/
def rowNoType : Row :=
  [some (.str "R3"), some (.str "d3"), none, some (.str "x"),
   some (.str "alta")]

/-- A non-empty data row whose `Tipo` matches the filter but whose
`Id` cell is absent. -/
def rowNoId : Row :=
  [none, some (.str "dX"), some (.str "semantica"), some (.str "x"),
   some (.str "alta")]

/-- The example header extended with a column labelled
`explanation` — a label outside `EXCEL_FIELD_MAP`. -/
def hdrX : Row := hdr ++ [some (.str "explanation")]

/-- The example data row extended with a value under that column. -/
def rX : Row := r1 ++ [some (.str "EXTRA")]

/-- The record produced from `rX`: the extra column's value lands in
the canonical `explanation` field. -/
def ruleRX : RuleData :=
  ⟨"R1", "desc1", "semantica", none, some (.str "file1.txt"), "alta",
   some (.str "EXTRA"), none⟩

/-- The example header extended with a blank (`None`) header cell. -/
def hdrN : Row := hdr ++ [none]

/-- A fault-free first-run environment: a fresh download, an empty
fingerprint store, a successful extraction of one record and a
successful upload. -/
def envBase : Env where
  download := .ok "/tmp/rules.xlsx" [1, 2, 3]
  digestFault := false
  hashFn := fun bs => String.intercalate "-" (bs.map toString)
  getFault := false
  putFault := false
  store := none
  extract := .ok [ruleR1]
  uploadOk := true
  execId := "test-local"
  elapsed := 1

/-- The same run with a faulting fingerprint-store read. -/
def envGateFault : Env := { envBase with getFault := true, store := some "old" }

/-- A configuration whose `GITHUB_TOKEN` is missing. -/
def cfgBad : Config :=
  ⟨some "https://github.com/mi-org/mi-repo", some "rules/rules.xlsx",
   some "main", none, some "bucket-validaciones", some "semantica"⟩

/-! Helper lemmas about header discovery. -/

lemma required_ne_empty : ∀ f ∈ REQUIRED_EXCEL_FIELDS, f ≠ "" := by decide

lemma cellHeaderVal_eq_some {oc : Option Cell} {f : String} (hf : f ≠ "") :
    cellHeaderVal oc = some f ↔ ∃ c, oc = some c ∧ pyStrip (cellStr c) = f := by
  cases oc with
  | none => simp [cellHeaderVal]
  | some c =>
    simp only [cellHeaderVal, Option.some.injEq]
    by_cases h : pyStrip (cellStr c) = ""
    · rw [if_pos h]
      constructor
      · intro hh; exact absurd hh (by simp)
      · rintro ⟨c', hc', hps⟩
        subst hc'
        exact absurd (h ▸ hps).symm hf
    · rw [if_neg h]
      constructor
      · intro hh
        injection hh with hh
        exact ⟨c, rfl, hh⟩
      · rintro ⟨c', hc', hps⟩
        subst hc'
        rw [hps]

lemma mem_rowCellValues {r : Row} {f : String} (hf : f ≠ "") :
    f ∈ rowCellValues r ↔ ∃ c : Cell, some c ∈ r ∧ pyStrip (cellStr c) = f := by
  unfold rowCellValues
  rw [List.mem_filterMap]
  constructor
  · rintro ⟨oc, hmem, hoc⟩
    obtain ⟨c, rfl, hps⟩ := (cellHeaderVal_eq_some hf).mp hoc
    exact ⟨c, hmem, hps⟩
  · rintro ⟨c, hc, hps⟩
    exact ⟨some c, hc, (cellHeaderVal_eq_some hf).mpr ⟨c, rfl, hps⟩⟩

lemma row_has_all_required_iff {r : Row} :
    row_has_all_required r = true ↔ RowQualifies r := by
  unfold row_has_all_required RowQualifies
  rw [List.all_eq_true]
  constructor
  · intro h f hf
    have := h f hf
    rw [List.elem_iff] at this
    exact (mem_rowCellValues (required_ne_empty f hf)).mp this
  · intro h f hf
    rw [List.elem_iff]
    exact (mem_rowCellValues (required_ne_empty f hf)).mpr (h f hf)

lemma find_header_some_iff :
    ∀ (rows : List Row) (i : Nat),
      find_header_row_index rows = some i ↔
        ∃ r, rows.get? i = some r ∧ row_has_all_required r = true ∧
          ∀ j r', j < i → rows.get? j = some r' → row_has_all_required r' = false := by
  intro rows
  induction rows with
  | nil => intro i; simp [find_header_row_index]
  | cons r rs ih =>
    intro i
    by_cases h : row_has_all_required r = true
    · rw [find_header_row_index, if_pos h]
      constructor
      · intro hi
        injection hi with hi
        subst hi
        exact ⟨r, rfl, h, fun j r' hj => absurd hj (Nat.not_lt_zero j)⟩
      · rintro ⟨r0, hr0, _, hprev⟩
        cases i with
        | zero => rfl
        | succ k =>
          have := hprev 0 r (Nat.succ_pos k) rfl
          rw [h] at this
          cases this
    · rw [find_header_row_index, if_neg h]
      constructor
      · intro hi
        rw [Option.map_eq_some'] at hi
        obtain ⟨i', hi', rfl⟩ := hi
        obtain ⟨r0, hr0, hq, hprev⟩ := (ih i').mp hi'
        refine ⟨r0, hr0, hq, ?_⟩
        intro j r' hj hget
        cases j with
        | zero =>
          injection hget with hget
          subst hget
          exact Bool.eq_false_iff.mpr h
        | succ j' =>
          exact hprev j' r' (Nat.lt_of_succ_lt_succ hj) hget
      · rintro ⟨r0, hr0, hq, hprev⟩
        cases i with
        | zero =>
          injection hr0 with hr0
          subst hr0
          exact absurd hq h
        | succ k =>
          rw [Option.map_eq_some']
          refine ⟨k, ?_, rfl⟩
          refine (ih k).mpr ⟨r0, hr0, hq, ?_⟩
          intro j r' hj hget
          exact hprev (j + 1) r' (Nat.succ_lt_succ hj) hget

lemma find_header_none_iff :
    ∀ rows : List Row,
      find_header_row_index rows = none ↔
        ∀ r ∈ rows, row_has_all_required r = false := by
  intro rows
  induction rows with
  | nil => simp [find_header_row_index]
  | cons r rs ih =>
    by_cases h : row_has_all_required r = true
    · rw [find_header_row_index, if_pos h]
      simp only [List.mem_cons]
      constructor
      · intro hh; cases hh
      · intro hall
        have := hall r (Or.inl rfl)
        rw [h] at this
        cases this
    · rw [find_header_row_index, if_neg h]
      rw [Option.map_eq_none']
      rw [ih]
      simp only [List.mem_cons]
      constructor
      · intro hall r' hr'
        rcases hr' with rfl | hr'
        · exact Bool.eq_false_iff.mpr h
        · exact hall r' hr'
      · intro hall r' hr'
        exact hall r' (Or.inr hr')

lemma pw_headerNotFound {rows : List Row} {f : String}
    (h : rows = [] ∨ find_header_row_index rows = none) :
    process_worksheet rows f = .error .headerNotFound := by
  unfold process_worksheet
  rcases h with rfl | hnone
  · rw [if_pos rfl]
  · by_cases hnil : rows = []
    · rw [if_pos hnil]
    · rw [if_neg hnil, hnone]

lemma load_sheets_skip {rows : List Row} {fup : String} {e : SheetErr}
    (pre post : List (String × List Row)) (name : String)
    (h : process_worksheet rows fup = .error e) :
    load_sheets fup (pre ++ (name, rows) :: post) =
      ⟨(load_sheets fup (pre ++ post)).rules,
       (load_sheets fup (pre ++ post)).processed_sheets,
       (load_sheets fup (pre ++ post)).skipped_sheets + 1⟩ := by
  induction pre with
  | nil => simp [load_sheets, h]
  | cons p pre ih =>
    obtain ⟨nm, rws⟩ := p
    simp only [List.cons_append, load_sheets, List.append_eq]
    rw [ih]
    cases hpw : process_worksheet rws fup <;> simp [hpw]

/-- C6: header discovery scans a sheet's rows top to bottom and
returns the index of the first row whose set of non-empty,
whitespace-trimmed, stringified cell values is a superset of the
required labels; a sheet with zero rows or no qualifying row yields
not-found, which raises the sheet-level header error, and such a sheet
contributes zero records while the remaining sheets of the workbook
are still processed. -/
theorem c6_header_discovery :
    (∀ (rows : List Row) (i : Nat),
        find_header_row_index rows = some i ↔
          ∃ r, rows.get? i = some r ∧ RowQualifies r ∧
            ∀ j r', j < i → rows.get? j = some r' → ¬ RowQualifies r')
    ∧ (∀ rows : List Row,
        find_header_row_index rows = none ↔ ∀ r ∈ rows, ¬ RowQualifies r)
    ∧ find_header_row_index [] = none
    ∧ (∀ (rows : List Row) (f : String),
        rows = [] ∨ find_header_row_index rows = none →
        process_worksheet rows f = .error SheetErr.headerNotFound)
    ∧ (∀ (pre post : List (String × List Row)) (name : String)
        (rows : List Row) (f : String) (e : SheetErr),
        process_worksheet rows (pyUpper f) = .error e →
        (load_rules_from_excel (pre ++ (name, rows) :: post) f).rules =
            (load_rules_from_excel (pre ++ post) f).rules
          ∧ (load_rules_from_excel (pre ++ (name, rows) :: post) f).processed_sheets =
            (load_rules_from_excel (pre ++ post) f).processed_sheets) := by
  refine ⟨?_, ?_, rfl, ?_, ?_⟩
  · intro rows i
    rw [find_header_some_iff]
    constructor
    · rintro ⟨r, hr, hq, hprev⟩
      refine ⟨r, hr, row_has_all_required_iff.mp hq, ?_⟩
      intro j r' hj hget hq'
      have := hprev j r' hj hget
      rw [row_has_all_required_iff.mpr hq'] at this
      cases this
    · rintro ⟨r, hr, hq, hprev⟩
      refine ⟨r, hr, row_has_all_required_iff.mpr hq, ?_⟩
      intro j r' hj hget
      have := hprev j r' hj hget
      exact Bool.eq_false_iff.mpr (fun hb => this (row_has_all_required_iff.mp hb))
  · intro rows
    rw [find_header_none_iff]
    constructor
    · intro h r hr hq
      have := h r hr
      rw [row_has_all_required_iff.mpr hq] at this
      cases this
    · intro h r hr
      exact Bool.eq_false_iff.mpr (fun hb => h r hr (row_has_all_required_iff.mp hb))
  · intro rows f h
    exact pw_headerNotFound h
  · intro pre post name rows f e h
    unfold load_rules_from_excel
    rw [load_sheets_skip pre post name h]
    exact ⟨rfl, rfl⟩

/-- Witness for C6 at concrete inputs: the empty sheet and a sheet
whose only row is a data row both raise the header error, and in a
workbook such a sheet contributes no records. -/
theorem c6_header_discovery_witness :
    process_worksheet [] "SEMANTICA" = .error SheetErr.headerNotFound
    ∧ (load_rules_from_excel [("Hoja1", [r1])] "SEMANTICA").rules =
        (load_rules_from_excel [] "SEMANTICA").rules := by
  refine ⟨c6_header_discovery.2.2.2.1 [] "SEMANTICA" (Or.inl rfl), ?_⟩
  exact (c6_header_discovery.2.2.2.2 [] [] "Hoja1" [r1] "SEMANTICA"
    SheetErr.headerNotFound rfl).1

/-! Helper lemmas about row dictionaries and the data-row loop. -/

lemma dictGet_nil (k' : RKey) : dictGet [] k' = none := rfl

lemma dictGet_cons (k0 : RKey) (v0 : Cell) (rest : RowDict) (k' : RKey) :
    dictGet ((k0, v0) :: rest) k' =
      if k0 = k' then some v0 else dictGet rest k' := by
  unfold dictGet
  rw [List.find?_cons]
  by_cases h : k0 = k' <;> simp [h]

lemma dictGet_dictSet (d : RowDict) (k : RKey) (v : Cell) (k' : RKey) :
    dictGet (dictSet d k v) k' = if k' = k then some v else dictGet d k' := by
  induction d with
  | nil =>
    rw [dictSet, dictGet_cons, dictGet_nil]
    by_cases h : k' = k
    · rw [if_pos h, if_pos h.symm]
    · rw [if_neg h, if_neg (fun hh => h hh.symm)]
  | cons p rest ih =>
    obtain ⟨k0, v0⟩ := p
    rw [dictSet]
    by_cases h0 : k0 = k
    · subst h0
      rw [if_pos rfl, dictGet_cons, dictGet_cons]
      by_cases h' : k0 = k'
      · rw [if_pos h', if_pos h'.symm]
      · rw [if_neg h', if_neg (fun hh => h' hh.symm), if_neg h']
    · rw [if_neg h0, dictGet_cons, dictGet_cons, ih]
      by_cases h' : k' = k
      · subst h'
        rw [if_pos rfl, if_pos rfl]
        by_cases h0' : k0 = k'
        · exact absurd h0' h0
        · rw [if_neg h0']
      · rw [if_neg h', if_neg h']

lemma dictGet_append_single (d : RowDict) (k : RKey) (v : Cell) (k' : RKey)
    (h : k' ≠ k) : dictGet (d ++ [(k, v)]) k' = dictGet d k' := by
  induction d with
  | nil =>
    rw [List.nil_append, dictGet_cons, dictGet_nil,
      if_neg (fun hh => h hh.symm)]
  | cons p rest ih =>
    obtain ⟨k0, v0⟩ := p
    rw [List.cons_append, dictGet_cons, dictGet_cons, ih]

lemma hasNonStringKey_append (d e : RowDict) :
    hasNonStringKey (d ++ e) = (hasNonStringKey d || hasNonStringKey e) := by
  unfold hasNonStringKey
  exact List.any_append

lemma hasNonStringKey_dictSet (d : RowDict) (k : RKey) (v : Cell) :
    hasNonStringKey (dictSet d k v) = (hasNonStringKey d || isNonStrKey k) := by
  induction d with
  | nil => simp [dictSet, hasNonStringKey]
  | cons p rest ih =>
    obtain ⟨k0, v0⟩ := p
    rw [dictSet]
    by_cases h0 : k0 = k
    · subst h0
      simp only [hasNonStringKey, List.any_cons]
      cases hk : isNonStrKey k0 <;> simp [hk]
    · rw [if_neg h0]
      simp only [hasNonStringKey, List.any_cons] at ih ⊢
      rw [ih]
      cases isNonStrKey k0 <;> simp

lemma ruleDataNew_congr {d d' : RowDict}
    (hn : hasNonStringKey d = hasNonStringKey d')
    (hg : ∀ n ∈ INIT_PARAM_NAMES, dictGet d (strKey n) = dictGet d' (strKey n)) :
    ruleDataNew d = ruleDataNew d' := by
  have hself := hg "self" (by simp [INIT_PARAM_NAMES])
  have hid := hg "id" (by simp [INIT_PARAM_NAMES])
  have hdesc := hg "description" (by simp [INIT_PARAM_NAMES])
  have htype := hg "type" (by simp [INIT_PARAM_NAMES])
  have hdoc := hg "documentation" (by simp [INIT_PARAM_NAMES])
  have href := hg "references" (by simp [INIT_PARAM_NAMES])
  have hcrit := hg "criticality" (by simp [INIT_PARAM_NAMES])
  have hexp := hg "explanation" (by simp [INIT_PARAM_NAMES])
  have hproj := hg "projects" (by simp [INIT_PARAM_NAMES])
  unfold ruleDataNew
  rw [hn, hself, hid, hdesc, htype, hdoc, href, hcrit, hexp, hproj]

lemma matches_type_filter_congr {d d' : RowDict} (f : String)
    (h : dictGet d (strKey "type") = dictGet d' (strKey "type")) :
    matches_type_filter d f = matches_type_filter d' f := by
  simp only [strKey] at h
  unfold matches_type_filter
  rw [h]

lemma create_row_dict_append (row mapped : Row)
    (h : mapped.length = row.length) (k : RKey) (oc : Option Cell) :
    create_row_dict (row ++ [oc]) (mapped ++ [k]) =
      (match oc with
       | none => create_row_dict row mapped
       | some c =>
         match cleanCell c with
         | none => create_row_dict row mapped
         | some c' => dictSet (create_row_dict row mapped) k c') := by
  unfold create_row_dict
  rw [List.zip_append h, List.foldl_append]
  cases oc with
  | none => rfl
  | some c =>
    cases hc : cleanCell c <;>
      simp [hc, List.zip]

lemma rowStep_eq (m : Row) (f : String) (i : Nat) (row : Row) :
    rowStep m f i row =
      (if is_empty_row row then .ok .empty
       else
         match matches_type_filter (create_row_dict row m) f with
         | .error _ => .ok (.invalid ⟨i, zip_raw_row_data m row⟩)
         | .ok false => .ok .filtered
         | .ok true =>
           match ruleDataNew (create_row_dict row m) with
           | .ok r => .ok (.valid r)
           | .error _ =>
             .ok (.invalid ⟨i, .cleaned (create_row_dict row m)⟩)) := by
  unfold rowStep create_rule_from_row
  cases he : is_empty_row row with
  | true => simp [he]
  | false =>
    simp only [he, Bool.false_eq_true, if_false]
    cases hm : matches_type_filter (create_row_dict row m) f with
    | error u => simp [hm]
    | ok b =>
      cases b with
      | false => simp [hm]
      | true =>
        cases hr : ruleDataNew (create_row_dict row m) <;> simp [hm, hr]

lemma row_rule_of_rowStep_valid {m : Row} {f : String} {i : Nat} {row : Row}
    {r : RuleData} (h : rowStep m f i row = .ok (.valid r)) :
    row_rule m f row = some r := by
  rw [rowStep_eq] at h
  unfold row_rule
  cases he : is_empty_row row with
  | true => rw [he] at h; simp at h
  | false =>
    rw [he] at h
    simp only [Bool.false_eq_true, if_false] at h ⊢
    cases hm : matches_type_filter (create_row_dict row m) f with
    | error u => rw [hm] at h; simp at h
    | ok b =>
      rw [hm] at h
      cases b with
      | false => simp at h
      | true =>
        cases hr : ruleDataNew (create_row_dict row m) with
        | ok r0 =>
          rw [hr] at h
          simp only [Except.ok.injEq] at h
          cases h
          simp [Except.toOption]
        | error e => rw [hr] at h; simp at h

lemma row_rule_of_rowStep_other {m : Row} {f : String} {i : Nat} {row : Row}
    {o : RowOutcome} (h : rowStep m f i row = .ok o)
    (ho : ∀ r, o ≠ RowOutcome.valid r) : row_rule m f row = none := by
  rw [rowStep_eq] at h
  unfold row_rule
  cases he : is_empty_row row with
  | true => simp
  | false =>
    rw [he] at h
    simp only [Bool.false_eq_true, if_false] at h ⊢
    cases hm : matches_type_filter (create_row_dict row m) f with
    | error u => rfl
    | ok b =>
      rw [hm] at h
      cases b with
      | false => rfl
      | true =>
        cases hr : ruleDataNew (create_row_dict row m) with
        | ok r0 =>
          rw [hr] at h
          simp only [Except.ok.injEq] at h
          exact absurd h.symm (ho r0)
        | error e => simp [hr, Except.toOption]

lemma row_errs_append (m : Row) (f : String) :
    ∀ (xs ys : List Row) (i : Nat),
      row_errs m f i (xs ++ ys) =
        row_errs m f i xs ++ row_errs m f (i + xs.length) ys := by
  intro xs
  induction xs with
  | nil => intro ys i; simp [row_errs]
  | cons x xs ih =>
    intro ys i
    simp only [List.cons_append, row_errs, List.append_eq, ih,
      List.append_assoc, List.length_cons]
    have harith : i + 1 + xs.length = i + (xs.length + 1) := by omega
    rw [harith]

lemma process_rows_ok {m : Row} {f : String} :
    ∀ {rows : List Row} {i : Nat} {st : SheetStats},
      process_rows m f i rows = .ok st →
      st.rules = rows.filterMap (row_rule m f)
        ∧ st.validation_errors = row_errs m f i rows := by
  intro rows
  induction rows with
  | nil =>
    intro i st h
    rw [process_rows] at h
    injection h with h
    subst h
    exact ⟨rfl, rfl⟩
  | cons row rest ih =>
    intro i st h
    rw [process_rows] at h
    cases hs : rowStep m f i row with
    | error e => rw [hs] at h; cases h
    | ok o =>
      rw [hs] at h
      cases hrec : process_rows m f (i + 1) rest with
      | error e => rw [hrec] at h; cases h
      | ok st' =>
        rw [hrec] at h
        injection h with h
        subst h
        obtain ⟨hr, he⟩ := ih hrec
        constructor
        · rw [List.filterMap_cons]
          cases o with
          | valid r =>
            rw [row_rule_of_rowStep_valid hs]
            simp [consOutcome, hr]
          | empty =>
            rw [row_rule_of_rowStep_other hs (by intro r h; cases h)]
            simp [consOutcome, hr]
          | filtered =>
            rw [row_rule_of_rowStep_other hs (by intro r h; cases h)]
            simp [consOutcome, hr]
          | invalid e =>
            rw [row_rule_of_rowStep_other hs (by intro r h; cases h)]
            simp [consOutcome, hr]
          | invalidNoEntry =>
            rw [row_rule_of_rowStep_other hs (by intro r h; cases h)]
            simp [consOutcome, hr]
        · rw [row_errs, hs]
          cases o <;> simp [consOutcome, he]

lemma ruleDataNew_ok_gets {d : RowDict} {r : RuleData}
    (h : ruleDataNew d = .ok r) :
    (dictGet d (strKey "id")).isSome = true
      ∧ (dictGet d (strKey "description")).isSome = true
      ∧ (dictGet d (strKey "type")).isSome = true := by
  unfold ruleDataNew at h
  by_cases h1 : hasNonStringKey d = true
  · rw [if_pos h1] at h
    exact absurd h (by simp)
  · rw [if_neg h1] at h
    by_cases h2 : (dictGet d (strKey "self")).isSome = true
    · rw [if_pos h2] at h
      exact absurd h (by simp)
    · rw [if_neg h2] at h
      cases hid : dictGet d (strKey "id") <;>
        cases hdesc : dictGet d (strKey "description") <;>
          cases htyp : dictGet d (strKey "type") <;>
            rw [hid, hdesc, htyp] at h <;>
              simp_all

lemma ruleDataNew_missing {d : RowDict}
    (h : dictGet d (strKey "id") = none
      ∨ dictGet d (strKey "description") = none
      ∨ dictGet d (strKey "type") = none) :
    ∃ e, ruleDataNew d = .error e := by
  cases hr : ruleDataNew d with
  | ok r =>
    obtain ⟨h1, h2, h3⟩ := ruleDataNew_ok_gets hr
    rcases h with h | h | h
    · rw [h] at h1; cases h1
    · rw [h] at h2; cases h2
    · rw [h] at h3; cases h3
  | error e => exact ⟨e, rfl⟩

lemma rowStep_invalid {m : Row} {f : String} {i : Nat} {row : Row}
    (hne : is_empty_row row = false)
    (hm : matches_type_filter (create_row_dict row m) f = .ok true)
    (he : ∃ e, ruleDataNew (create_row_dict row m) = .error e) :
    rowStep m f i row =
      .ok (.invalid ⟨i, .cleaned (create_row_dict row m)⟩) := by
  obtain ⟨e, he⟩ := he
  rw [rowStep_eq, hne]
  simp only [Bool.false_eq_true, if_false]
  rw [hm, he]

/-- C7 counterexample: the claim asserts that any non-empty data row
with `type` absent after trimming produces a row-scoped validation
fault, but under the active type filter `SEMANTICA` the loader
silently drops such a row as filtered: zero validation faults, one
filtered row, no record. -/
theorem c7_counterexample :
    is_empty_row rowNoType = false
    ∧ dictGet (create_row_dict rowNoType (map_headers hdr)) (strKey "type")
        = none
    ∧ process_worksheet [hdr, rowNoType] "SEMANTICA" =
        .ok ⟨[], 0, 0, 1, 0, []⟩ :=
  ⟨rfl, rfl, rfl⟩

/-- C7 amended: for any non-empty data row that passes the active type
filter and whose normalized dict lacks `id`, `description` or `type`,
the loop records a row-scoped validation fault carrying the row number
and the normalized row data, the row contributes no record, and the
rows before and after it in the same sheet still contribute exactly
their own records.  (A row whose `type` is absent under a non-empty
filter never reaches validation: it is silently filtered — see the
counterexample and C10.) -/
theorem c7_amended_row_fault :
    ∀ (m : Row) (f : String) (i : Nat) (pre post : List Row) (row : Row),
      is_empty_row row = false →
      matches_type_filter (create_row_dict row m) f = .ok true →
      (dictGet (create_row_dict row m) (strKey "id") = none
        ∨ dictGet (create_row_dict row m) (strKey "description") = none
        ∨ dictGet (create_row_dict row m) (strKey "type") = none) →
      rowStep m f i row =
          .ok (.invalid ⟨i, .cleaned (create_row_dict row m)⟩)
        ∧ ∀ st, process_rows m f i (pre ++ row :: post) = .ok st →
            (⟨i + pre.length,
              RowDataPayload.cleaned (create_row_dict row m)⟩
                ∈ st.validation_errors
              ∧ st.rules = pre.filterMap (row_rule m f)
                  ++ post.filterMap (row_rule m f)) := by
  intro m f i pre post row hne hm hmiss
  have hinv := rowStep_invalid (i := i) hne hm (ruleDataNew_missing hmiss)
  refine ⟨hinv, ?_⟩
  intro st h
  obtain ⟨hr, he⟩ := process_rows_ok h
  constructor
  · rw [he, row_errs_append]
    refine List.mem_append_right _ ?_
    rw [row_errs, rowStep_invalid hne hm (ruleDataNew_missing hmiss)]
    exact List.mem_append_left _ (List.mem_singleton.mpr rfl)
  · rw [hr, List.filterMap_append, List.filterMap_cons]
    rw [row_rule_of_rowStep_other hinv (by intro r hh; cases hh)]

/-- Witness for C7 amended: a concrete sheet row whose `Tipo` matches
the filter but whose `Id` cell is absent yields the recorded fault and
no record. -/
theorem c7_amended_row_fault_witness :
    rowStep (map_headers hdr) "SEMANTICA" 2 rowNoId =
        .ok (.invalid ⟨2, .cleaned (create_row_dict rowNoId (map_headers hdr))⟩)
      ∧ ∀ st,
          process_rows (map_headers hdr) "SEMANTICA" 2 ([] ++ rowNoId :: []) =
            .ok st →
          (⟨2 + List.length ([] : List Row),
            RowDataPayload.cleaned (create_row_dict rowNoId (map_headers hdr))⟩
              ∈ st.validation_errors
            ∧ st.rules =
                List.filterMap (row_rule (map_headers hdr) "SEMANTICA") []
                  ++ List.filterMap (row_rule (map_headers hdr) "SEMANTICA") []) :=
  c7_amended_row_fault (map_headers hdr) "SEMANTICA" 2 [] [] rowNoId
    rfl rfl (Or.inl rfl)

/-- C10: with a non-empty (active) type filter, a non-empty data row
whose canonical `type` value is absent from the normalized dict — the
cell was missing or blank after trimming — is compared as the empty
string, fails the filter, and is silently counted as filtered: no
record, no validation fault. -/
theorem c10_missing_type_filtered :
    ∀ (m : Row) (f : String) (i : Nat) (row : Row),
      f ≠ "" →
      is_empty_row row = false →
      dictGet (create_row_dict row m) (strKey "type") = none →
      matches_type_filter (create_row_dict row m) f = .ok false
        ∧ rowStep m f i row = .ok .filtered
        ∧ row_rule m f row = none
        ∧ ∀ st, consOutcome RowOutcome.filtered st =
            { st with filtered_rules := st.filtered_rules + 1 } := by
  intro m f i row hf hne hget
  have hm : matches_type_filter (create_row_dict row m) f = .ok false := by
    unfold matches_type_filter
    simp only [strKey] at hget
    rw [hget]
    have h0 : pyUpper (pyStrip "") = "" := rfl
    rw [h0]
    have hb : (("" : String) == f) = false :=
      beq_eq_false_iff_ne.mpr (Ne.symm hf)
    rw [hb]
  refine ⟨hm, ?_, ?_, fun st => rfl⟩
  · rw [rowStep_eq, hne]
    simp only [Bool.false_eq_true, if_false]
    rw [hm]
  · unfold row_rule
    rw [hne]
    simp only [Bool.false_eq_true, if_false]
    rw [hm]

/-- Witness for C10: the concrete row without a `Tipo` cell is
filtered, not faulted, under the `SEMANTICA` filter. -/
theorem c10_missing_type_filtered_witness :
    matches_type_filter (create_row_dict rowNoType (map_headers hdr))
        "SEMANTICA" = .ok false
      ∧ rowStep (map_headers hdr) "SEMANTICA" 2 rowNoType = .ok .filtered :=
  ⟨(c10_missing_type_filtered (map_headers hdr) "SEMANTICA" 2 rowNoType
      (by decide) rfl rfl).1,
   (c10_missing_type_filtered (map_headers hdr) "SEMANTICA" 2 rowNoType
      (by decide) rfl rfl).2.1⟩

/-! Helper lemmas for the unknown-column behaviour. -/

lemma strKey_inj {a b : String} (h : strKey a = strKey b) : a = b := by
  simp [strKey] at h
  exact h

lemma map_headers_append (hs t : Row) :
    map_headers (hs ++ t) = map_headers hs ++ map_headers t :=
  List.map_append mapHeader hs t

lemma ruleDataNew_append_unknown {d : RowDict} {s : String} (v : Cell)
    (hs : s ∉ INIT_PARAM_NAMES) :
    ruleDataNew (d ++ [(strKey s, v)]) = ruleDataNew d := by
  apply ruleDataNew_congr
  · rw [hasNonStringKey_append]
    have : hasNonStringKey [(strKey s, v)] = false := by
      simp [hasNonStringKey, isNonStrKey, strKey]
    rw [this, Bool.or_false]
  · intro n hn
    apply dictGet_append_single
    intro hkeq
    exact hs ((strKey_inj hkeq) ▸ hn)

lemma ruleDataNew_dictSet_unknown {d : RowDict} {s : String} (v : Cell)
    (hs : s ∉ INIT_PARAM_NAMES) :
    ruleDataNew (dictSet d (strKey s) v) = ruleDataNew d := by
  apply ruleDataNew_congr
  · rw [hasNonStringKey_dictSet]
    have : isNonStrKey (strKey s) = false := by simp [isNonStrKey, strKey]
    rw [this, Bool.or_false]
  · intro n hn
    rw [dictGet_dictSet]
    rw [if_neg (fun hkeq => hs (by rw [← strKey_inj hkeq]; exact hn))]

/-- C8 counterexample: the claim asserts that a cell under a header
label outside the source-label table never appears among the canonical
fields of the record, but the header `explanation` — absent from
`EXCEL_FIELD_MAP` — passes through unmapped, binds the constructor's
`explanation` parameter, and its value `EXTRA` lands in the record. -/
theorem c8_counterexample :
    EXCEL_FIELD_MAP.find? (fun p => p.1 = "explanation") = none
    ∧ "explanation" ∉ REQUIRED_EXCEL_FIELDS
    ∧ process_worksheet [hdrX, rX] "SEMANTICA" =
        .ok ⟨[ruleRX], 1, 0, 0, 0, []⟩
    ∧ ruleRX.explanation = some (.str "EXTRA") :=
  ⟨rfl, by decide, rfl, rfl⟩

/-- C8 amended: a cell under an extra column whose header is a string
that is neither a source label of the table nor one of the record
constructor's parameter names is ignored — the constructor result, and
hence the produced record and the accept/reject outcome of the row,
are unchanged.  A string header equal to a constructor parameter name
populates that field instead (see the counterexample), and a blank
(`None`) header over a surviving cell makes the constructor call fail,
rejecting the row with a validation fault once it passes the type
filter. -/
theorem c8_amended_unknown_columns :
    ∀ (d : RowDict) (s : String) (v c : Cell) (headers row : Row)
      (oc : Option Cell) (f : String) (idx : Nat),
      (s ∉ INIT_PARAM_NAMES →
        ruleDataNew (d ++ [(strKey s, v)]) = ruleDataNew d)
      ∧ ruleDataNew (d ++ [(none, v)]) = .error .kwNotString
      ∧ (headers.length = row.length → s ∉ INIT_PARAM_NAMES →
          excel_field_map_get s = s →
          ∀ x, create_rule_from_row (row ++ [oc])
                  (map_headers (headers ++ [some (.str s)])) f idx = .ok x
               ↔ create_rule_from_row row (map_headers headers) f idx = .ok x)
      ∧ (headers.length = row.length →
          ∀ c', cleanCell c = some c' →
          matches_type_filter
              (create_row_dict (row ++ [some c])
                (map_headers (headers ++ [none]))) f = .ok true →
          ∃ e, create_rule_from_row (row ++ [some c])
              (map_headers (headers ++ [none])) f idx = .error e) := by
  intro d s v c headers row oc f idx
  have hlen : ∀ hs0 : Row, (map_headers hs0).length = hs0.length :=
    fun hs0 => List.length_map hs0 mapHeader
  refine ⟨fun hs => ruleDataNew_append_unknown v hs, ?_, ?_, ?_⟩
  · unfold ruleDataNew
    have : hasNonStringKey (d ++ [((none : RKey), v)]) = true := by
      rw [hasNonStringKey_append]
      have : hasNonStringKey [((none : RKey), v)] = true := by
        simp [hasNonStringKey, isNonStrKey]
      rw [this, Bool.or_true]
    rw [if_pos this]
  · intro hl hs hmap x
    rw [map_headers_append]
    have hm1 : map_headers [some (Cell.str s)] = [strKey s] := by
      simp [map_headers, mapHeader, hmap, strKey]
    rw [hm1]
    have hlen' : (map_headers headers).length = row.length := by
      rw [hlen headers, hl]
    rw [create_rule_from_row, create_rule_from_row]
    rw [create_row_dict_append row (map_headers headers) hlen' (strKey s) oc]
    have htypemem : ("type" : String) ∈ INIT_PARAM_NAMES := by decide
    have hcase : ∀ dd : RowDict,
        matches_type_filter dd f =
          matches_type_filter (create_row_dict row (map_headers headers)) f →
        ruleDataNew dd =
          ruleDataNew (create_row_dict row (map_headers headers)) →
        ((match matches_type_filter dd f with
          | Except.error _ =>
            Except.error (ε := RuleValidationError)
              ⟨idx, zip_raw_row_data (map_headers headers ++ [strKey s])
                (row ++ [oc])⟩
          | Except.ok false => Except.ok none
          | Except.ok true =>
            match ruleDataNew dd with
            | Except.ok r => Except.ok (some r)
            | Except.error _ =>
              Except.error ⟨idx, RowDataPayload.cleaned dd⟩) = Except.ok x
          ↔ (match matches_type_filter
                (create_row_dict row (map_headers headers)) f with
             | Except.error _ =>
               Except.error (ε := RuleValidationError)
                 ⟨idx, zip_raw_row_data (map_headers headers) row⟩
             | Except.ok false => Except.ok none
             | Except.ok true =>
               match ruleDataNew (create_row_dict row (map_headers headers)) with
               | Except.ok r => Except.ok (some r)
               | Except.error _ =>
                 Except.error ⟨idx, RowDataPayload.cleaned
                   (create_row_dict row (map_headers headers))⟩) =
              Except.ok x) := by
      intro dd hmt hrn
      rw [hmt, hrn]
      cases hm : matches_type_filter (create_row_dict row (map_headers headers)) f with
      | error u => simp
      | ok b =>
        cases b with
        | false => exact Iff.rfl
        | true =>
          cases hr : ruleDataNew (create_row_dict row (map_headers headers)) with
          | ok r => exact Iff.rfl
          | error e => simp
    cases oc with
    | none => exact hcase _ rfl rfl
    | some c0 =>
      cases hc0 : cleanCell c0 with
      | none =>
        simp only [hc0]
        exact hcase _ rfl rfl
      | some c0' =>
        simp only [hc0]
        refine hcase _ ?_ ?_
        · apply matches_type_filter_congr
          rw [dictGet_dictSet]
          exact if_neg (fun hkeq => hs (by rw [← strKey_inj hkeq]; exact htypemem))
        · exact ruleDataNew_dictSet_unknown c0' hs
  · intro hl c' hc' hmt
    rw [map_headers_append] at hmt ⊢
    have hm1 : map_headers [(none : Option Cell)] = [(none : Option Cell)] := by
      simp [map_headers, mapHeader]
    rw [hm1] at hmt ⊢
    have hlen' : (map_headers headers).length = row.length := by
      rw [hlen headers, hl]
    rw [create_rule_from_row]
    rw [create_row_dict_append row (map_headers headers) hlen' none (some c)] at hmt ⊢
    simp only [hc'] at hmt ⊢
    rw [hmt]
    have hns : hasNonStringKey
        (dictSet (create_row_dict row (map_headers headers)) none c') = true := by
      rw [hasNonStringKey_dictSet]
      have : isNonStrKey (none : RKey) = true := by simp [isNonStrKey]
      rw [this, Bool.or_true]
    have herr : ruleDataNew
        (dictSet (create_row_dict row (map_headers headers)) none c') =
          .error .kwNotString := by
      unfold ruleDataNew
      rw [if_pos hns]
    rw [herr]
    exact ⟨_, rfl⟩

/-- Witness for C8 amended at concrete inputs: an extra string column
`extra_col` leaves both the constructor and the row outcome unchanged,
and a `None`-header column over a non-blank cell rejects the row. -/
theorem c8_amended_unknown_columns_witness :
    ruleDataNew (create_row_dict r1 (map_headers hdr)
        ++ [(strKey "extra_col", Cell.str "zz")]) =
      ruleDataNew (create_row_dict r1 (map_headers hdr))
    ∧ (create_rule_from_row (r1 ++ [some (Cell.str "zz")])
          (map_headers (hdr ++ [some (Cell.str "extra_col")])) "SEMANTICA" 2 =
            .ok (some ruleR1)
        ↔ create_rule_from_row r1 (map_headers hdr) "SEMANTICA" 2 =
            .ok (some ruleR1))
    ∧ ∃ e, create_rule_from_row (r1 ++ [some (Cell.str "EXTRA")])
        (map_headers (hdr ++ [none])) "SEMANTICA" 2 = .error e := by
  have h := c8_amended_unknown_columns
    (create_row_dict r1 (map_headers hdr)) "extra_col" (Cell.str "zz")
    (Cell.str "EXTRA") hdr r1 (some (Cell.str "zz")) "SEMANTICA" 2
  refine ⟨h.1 (by decide), h.2.2.1 (by decide) (by decide) (by decide)
    (some ruleR1), ?_⟩
  exact h.2.2.2 (by decide) (Cell.str "EXTRA") rfl rfl

/-! The orchestrator theorems. -/

/-- C2: in every run — of `RulesSynchronizer.sync_rules` and of
`lambda_handler` alike — at most one publish attempt occurs, and it
occurs exactly when the change gate reported changed and the extracted
record list is non-empty; an unchanged report, an extraction fault or
an empty record list ends the run without any publish attempt. -/
theorem c2_single_publish :
    ∀ env : Env,
      countPublish (sync_rules env).events ≤ 1
      ∧ (countPublish (sync_rules env).events = 1 ↔
          gateChangedRS env = true ∧ extractedNonEmpty env = true)
      ∧ countPublish (lambda_handler env).events ≤ 1
      ∧ (countPublish (lambda_handler env).events = 1 ↔
          gateChangedLH env = true ∧ extractedNonEmpty env = true) := by
  intro env
  cases hd : env.download with
  | err =>
    simp [sync_rules, lambda_handler, gateChangedRS, gateChangedLH, hd,
      countPublish]
  | ok path bytes =>
    refine ⟨?_, ?_, ?_, ?_⟩ <;>
      rcases hg : rs_has_file_changed
          (if env.digestFault then Except.error () else Except.ok (env.hashFn bytes))
          env.store env.getFault env.putFault with ⟨changed, st', wrote⟩ <;>
        cases hg2 : has_file_changed_s3
            (if env.digestFault then Except.error () else Except.ok (env.hashFn bytes))
            env.store env.getFault env.putFault <;>
          cases changed <;>
            cases wrote <;>
              cases hex : env.extract <;>
                simp_all [sync_rules, lambda_handler, gateChangedRS,
                  gateChangedLH, extractedNonEmpty, countPublish,
                  rs_has_file_changed] <;>
                  rename_i rules <;>
                    cases hemp : rules.isEmpty <;>
                      cases hup : env.uploadOk <;>
                        simp_all [countPublish]

/-- C1: the change gate compares the digest of the fetched artifact's
raw bytes with the stored fingerprint: if they are equal it reports
unchanged and writes nothing; if they differ — in particular on a
first run, when no fingerprint is stored and the read yields the empty
string — it writes the new digest and only then reports changed.
Consequently, in a fault-free run, whenever a publish attempt happens
the trace is exactly a store write followed by the publish, so the
fingerprint write precedes the publish attempt.  A second fault-free
run over the same digest reports unchanged and leaves the store as it
is. -/
theorem c1_change_gate :
    ∀ (cur : String) (store : Option String) (env : Env),
      (has_file_changed_s3 (.ok cur) store false false =
        if cur = pyStrip (store.getD "") then .ok (false, store, false)
        else .ok (true, some cur, true))
      ∧ (cur ≠ "" → has_file_changed_s3 (.ok cur) none false false =
          .ok (true, some cur, true))
      ∧ (pyStrip cur = cur →
          has_file_changed_s3 (.ok cur) (some cur) false false =
            .ok (false, some cur, false))
      ∧ (env.digestFault = false → env.getFault = false →
          env.putFault = false →
          countPublish (sync_rules env).events = 1 →
          ∃ hsh rules, (sync_rules env).events =
            [Event.putHashEv hsh, Event.publishEv rules]) := by
  intro cur store env
  refine ⟨?_, ?_, ?_, ?_⟩
  · unfold has_file_changed_s3
    by_cases h : cur = pyStrip (store.getD "") <;> simp [h]
  · intro hne
    unfold has_file_changed_s3
    have hnil : pyStrip ((none : Option String).getD "") = "" := rfl
    have h0 : pyStrip "" = "" := rfl
    simp [hnil, h0, hne]
  · intro hps
    unfold has_file_changed_s3
    simp [hps]
  · intro hdf hgf hpf hcount
    cases hd : env.download with
    | err => simp [sync_rules, hd, countPublish] at hcount
    | ok path bytes =>
      have hgate : rs_has_file_changed (Except.ok (env.hashFn bytes))
          env.store false false =
            (if env.hashFn bytes = pyStrip (env.store.getD "") then
              (false, env.store, false)
            else (true, some (env.hashFn bytes), true)) := by
        unfold rs_has_file_changed has_file_changed_s3
        by_cases h : env.hashFn bytes = pyStrip (env.store.getD "") <;> simp [h]
      by_cases heq : env.hashFn bytes = pyStrip (env.store.getD "")
      · rw [if_pos heq] at hgate
        simp [sync_rules, hd, hdf, hgf, hpf, hgate, countPublish] at hcount
      · rw [if_neg heq] at hgate
        cases hex : env.extract with
        | error u =>
          simp [sync_rules, hd, hdf, hgf, hpf, hgate, hex, countPublish]
            at hcount
        | ok rules =>
          cases hemp : rules.isEmpty with
          | true =>
            simp [sync_rules, hd, hdf, hgf, hpf, hgate, hex, hemp,
              countPublish] at hcount
          | false =>
            refine ⟨env.hashFn bytes, rules, ?_⟩
            cases hup : env.uploadOk <;>
              simp [sync_rules, hd, hdf, hgf, hpf, hgate, hex, hemp, hup]

/-- Witness for C1 at concrete inputs: a first run writes then reports
changed, a repeat run over the stored digest reports unchanged without
writing, and the fault-free base run's trace is exactly the store
write followed by the publish. -/
theorem c1_change_gate_witness :
    has_file_changed_s3 (.ok "h1") none false false =
        .ok (true, some "h1", true)
    ∧ has_file_changed_s3 (.ok "h1") (some "h1") false false =
        .ok (false, some "h1", false)
    ∧ ∃ hsh rules, (sync_rules envBase).events =
        [Event.putHashEv hsh, Event.publishEv rules] := by
  refine ⟨(c1_change_gate "h1" none envBase).2.1 (by decide),
    (c1_change_gate "h1" (some "h1") envBase).2.2.1 rfl, ?_⟩
  exact (c1_change_gate "h1" none envBase).2.2.2 rfl rfl rfl rfl

/-- C3 counterexample: with the token missing from the configuration,
the entry point `sync_rules_from_github` raises the configuration
`ValueError` to its caller instead of returning an Outcome — the
validation happens before and outside the orchestrator's handler. -/
theorem c3_counterexample :
    sync_rules_from_github cfgBad envBase =
        .error "Configuraciones faltantes: GITHUB_TOKEN"
      ∧ (sync_rules_from_github cfgBad envBase).isOk = false :=
  ⟨rfl, rfl⟩

/-- C3 amended: the orchestrator `sync_rules` itself returns the
structured Outcome for every collaborator behaviour (its status code
is always 200, 204 or 500 and its identifier and clock fields are the
run's), and the entry point `sync_rules_from_github` returns that
Outcome exactly when all six required configuration values are present
and non-empty; otherwise it propagates the configuration `ValueError`
listing the missing names. -/
theorem c3_amended_outcome :
    ∀ (cfg : Config) (env : Env),
      (sync_rules_from_github cfg env =
        if missing_configs cfg = [] then .ok (sync_rules env).result
        else .error ("Configuraciones faltantes: "
          ++ String.intercalate ", " (missing_configs cfg)))
      ∧ ((sync_rules env).result.status_code = 200
          ∨ (sync_rules env).result.status_code = 204
          ∨ (sync_rules env).result.status_code = 500)
      ∧ (sync_rules env).result.execution_id = env.execId
      ∧ (sync_rules env).result.execution_time = env.elapsed := by
  intro cfg env
  refine ⟨?_, ?_, ?_, ?_⟩
  · unfold sync_rules_from_github validate_configuration
    by_cases h : missing_configs cfg = [] <;> simp [h]
  all_goals
    cases hd : env.download with
    | err => simp [sync_rules, hd, mkResult]
    | ok path bytes =>
      rcases hg : rs_has_file_changed
          (if env.digestFault then Except.error () else Except.ok (env.hashFn bytes))
          env.store env.getFault env.putFault with ⟨changed, st', wrote⟩
      cases changed <;>
        cases hex : env.extract <;>
          simp_all [sync_rules, mkResult] <;>
            rename_i rules <;>
              cases hemp : rules.isEmpty <;>
                cases hup : env.uploadOk <;>
                  simp_all [mkResult]

/-- C4 evaluation at the failing input: a fault-free successful run of
`RulesSynchronizer.sync_rules` downloads the artifact, publishes, and
returns — with the downloaded temporary file still on disk, because
`_managed_temp_file` yields `None` and the re-assignment of
`excel_path` inside the `with` block never reaches the context
manager, so cleanup always operates on `None`.  `lambda_handler`, whose
`finally` uses its own local variable, does remove the file. -/
theorem c4_temp_file_left_on_disk :
    (sync_rules envBase).result.success = true
    ∧ (sync_rules envBase).result.status_code = 200
    ∧ (sync_rules envBase).tempFile = some "/tmp/rules.xlsx"
    ∧ (lambda_handler envBase).tempFile = none :=
  ⟨rfl, rfl, rfl, rfl⟩

/-- C5 counterexample: the claim says the change gate treats a
fingerprint-store fault as changed rather than propagating, but the
`has_file_changed_s3` gate used by `lambda_handler` and `main`
propagates the fault, and the surrounding handler turns the run into a
500 fault outcome with no extraction and no publish attempt. -/
theorem c5_counterexample :
    has_file_changed_s3 (.ok "h1") (some "old") true false = .error ()
    ∧ (lambda_handler envGateFault).resp.statusCode = 500
    ∧ countPublish (lambda_handler envGateFault).events = 0 :=
  ⟨rfl, rfl, rfl⟩

/-- C5 amended: the synchronizer's gate `_has_file_changed` treats
every fault — digest computation, fingerprint read, fingerprint
write — as changed, leaving the store untouched, so its run proceeds
to extraction and publish; the bare `has_file_changed_s3` gate used by
`lambda_handler` and `main` instead propagates the fault, and that run
ends as a 500 fault outcome without any publish attempt. -/
theorem c5_amended_gate_faults :
    ∀ (cur : String) (store : Option String) (gf pf : Bool) (env : Env),
      rs_has_file_changed (.error ()) store gf pf = (true, store, false)
      ∧ rs_has_file_changed (.ok cur) store true pf = (true, store, false)
      ∧ (cur ≠ pyStrip (store.getD "") →
          rs_has_file_changed (.ok cur) store false true =
            (true, store, false))
      ∧ (env.download ≠ DownloadResult.err →
          (env.getFault = true ∨ env.digestFault = true) →
          gateChangedRS env = true)
      ∧ (env.download ≠ DownloadResult.err →
          (env.getFault = true ∨ env.digestFault = true) →
          (lambda_handler env).resp.statusCode = 500
            ∧ countPublish (lambda_handler env).events = 0) := by
  intro cur store gf pf env
  refine ⟨?_, ?_, ?_, ?_, ?_⟩
  · unfold rs_has_file_changed has_file_changed_s3
    cases gf <;> simp
  · unfold rs_has_file_changed has_file_changed_s3
    simp
  · intro hne
    unfold rs_has_file_changed has_file_changed_s3
    simp [hne]
  · intro hdl hfault
    cases hd : env.download with
    | err => exact absurd hd hdl
    | ok path bytes =>
      cases hdfv : env.digestFault with
      | true =>
        simp [gateChangedRS, hd, hdfv, rs_has_file_changed,
          has_file_changed_s3]
      | false =>
        have hgf : env.getFault = true := by
          rcases hfault with h | h
          · exact h
          · rw [h] at hdfv; cases hdfv
        simp [gateChangedRS, hd, hdfv, hgf, rs_has_file_changed,
          has_file_changed_s3]
  · intro hdl hfault
    cases hd : env.download with
    | err => exact absurd hd hdl
    | ok path bytes =>
      cases hdfv : env.digestFault with
      | true =>
        simp [lambda_handler, hd, hdfv, has_file_changed_s3, countPublish]
      | false =>
        have hgf : env.getFault = true := by
          rcases hfault with h | h
          · exact h
          · rw [h] at hdfv; cases hdfv
        simp [lambda_handler, hd, hdfv, hgf, has_file_changed_s3,
          countPublish]

/-- Witness for C5 amended: the synchronizer's gate reports changed on
each concrete fault, and the faulted lambda run is the 500 outcome
with no publish. -/
theorem c5_amended_gate_faults_witness :
    rs_has_file_changed (.error ()) (some "old") false false =
        (true, some "old", false)
    ∧ rs_has_file_changed (.ok "h1") (some "old") true false =
        (true, some "old", false)
    ∧ rs_has_file_changed (.ok "h1") (some "old") false true =
        (true, some "old", false)
    ∧ gateChangedRS envGateFault = true
    ∧ (lambda_handler envGateFault).resp.statusCode = 500
    ∧ countPublish (lambda_handler envGateFault).events = 0 := by
  have h := c5_amended_gate_faults "h1" (some "old") false true envGateFault
  refine ⟨(c5_amended_gate_faults "h1" (some "old") false false
      envGateFault).1, h.2.1, h.2.2.1 (by decide), ?_, ?_, ?_⟩
  · exact h.2.2.2.1 (by decide) (Or.inl rfl)
  · exact (h.2.2.2.2 (by decide) (Or.inl rfl)).1
  · exact (h.2.2.2.2 (by decide) (Or.inl rfl)).2

/-- C9: the end-to-end example — one sheet with the canonical header
and the two data rows, filtered by `SEMANTICA` — yields exactly one
record, with id `R1`, description `desc1`, type `semantica`,
references `file1.txt` and criticality `alta`; the row-side comparison
trims and upper-cases the cell, so `semantica` matches the filter and
`estructura` is silently dropped. -/
theorem c9_end_to_end :
    (load_rules_from_excel [("Hoja1", [hdr, r1, r2])] "SEMANTICA").rules =
        [ruleR1]
    ∧ ruleR1.id = "R1" ∧ ruleR1.description = "desc1"
    ∧ ruleR1.type = "semantica"
    ∧ ruleR1.references = some (.str "file1.txt")
    ∧ ruleR1.criticality = "alta"
    ∧ matches_type_filter (create_row_dict r1 (map_headers hdr)) "SEMANTICA"
        = .ok true
    ∧ matches_type_filter (create_row_dict r2 (map_headers hdr)) "SEMANTICA"
        = .ok false :=
  ⟨rfl, rfl, rfl, rfl, rfl, rfl, rfl, rfl⟩

end SyncRules
